import Mathlib

/-!
Shallow embedding of the numpty pty-supervision core (src/src/lib.rs,
src/src/term.rs, src/src/pty.rs, src/src/protocol.rs, src/src/lines.rs)
and proofs about its settle-detection protocol, process supervision and
snapshot accessors.

Times are modelled as absolute milliseconds (Nat).  The avt virtual
terminal is an external collaborator; its state is modelled as the list
of decoded chunks fed to it, and a snapshot is the full copy of that
state at capture time.
-/

namespace Numpty

/-! ## Snapshot request protocol (src/src/protocol.rs)

A request carries the two durations and a one-shot reply slot.  The reply
slot identity is modelled by a numeric id, so that "which request got a
reply" is observable in the model. -/

structure Req where
  id : Nat
  wait_first : Nat
  wait_more : Nat
  deriving DecidableEq

/-- Reply of src/src/protocol.rs: captured grid plus optional error string.
The grid is the collaborator model of `Vec<avt::Line>`: the list of chunks
the interpreter was fed. -/
structure TermReply where
  lines : List String
  error : Option String
  deriving DecidableEq

/-! ## Terminal and settle Coordinator (src/src/term.rs `run_term`) -/

/-- The sentinel duration `Duration::from_millis(9999999999)` used by
`run_term` as an effectively infinite deadline. -/
def BIG : Nat := 9999999999

/-- The loop state of `run_term`: pending request, absolute deadline
`req_until`, whether the output queue has closed, the interpreter state
(chunks fed), the replies sent so far as (send time, request id, reply),
and whether the loop has exited (`break`). -/
structure TermState where
  maybe_waiting : Option Req
  req_until : Nat
  closed_output : Bool
  vt : List String
  sent : List (Nat × Nat × TermReply)
  stopped : Bool
  deriving DecidableEq

/-- Initial state of `run_term` when spawned at time `t0`:
`req_until = Instant::now() + 9999999999ms`, nothing pending, fresh vt. -/
def initTermState (t0 : Nat) : TermState :=
  { maybe_waiting := none
    req_until := t0 + BIG
    closed_output := false
    vt := []
    sent := []
    stopped := false }

/-- External events the `select!` in `run_term` can receive. -/
inductive Ev where
  | output (data : String)
  | closeOutput
  | request (r : Req)
  | cancel
  deriving DecidableEq

/-- `vt.view().to_vec()`: an independent copy of the interpreter state. -/
def captureView (st : TermState) : List String := st.vt

/-- The common reply block of `run_term` (closed-output branch, lines 47-55,
and deadline branch, lines 82-92): capture the grid, send the reply with
the immutable `error` (which is `None` throughout `run_term`), clear the
pending request and reset the deadline to `now + 9999999999ms`. -/
def sendReply (st : TermState) (t : Nat) (q : Req) : TermState :=
  { st with
      sent := st.sent ++ [(t, q.id, { lines := captureView st, error := none })]
      maybe_waiting := none
      req_until := t + BIG }

/-- The `sleep(wait)` branch of `run_term` firing at absolute time `fire`:
if a request is pending the terminal is considered settled and the reply
block runs; otherwise nothing happens. -/
def timeoutStep (st : TermState) (fire : Nat) : TermState :=
  if st.stopped then st
  else
    match st.maybe_waiting with
    | some q => sendReply st fire q
    | none => st

/-- One handled external event of `run_term`.  `loopTop` is the time at
which the current loop iteration began (where `let now = Instant::now()`
runs, line 27); `t` is the arrival time of the event.  The output branch
resets the deadline using the stale `now` captured at `loopTop`
(line 40: `req_until = now + waiting.wait_more`), while the request
branch takes a fresh `Instant::now()` (line 64). -/
def eventStep (st : TermState) (loopTop t : Nat) (e : Ev) : TermState :=
  if st.stopped then st
  else
    match e with
    | .output data =>
        if st.closed_output then st
        else
          let st1 := { st with vt := st.vt ++ [data] }
          match st1.maybe_waiting with
          | some q => { st1 with req_until := loopTop + q.wait_more }
          | none => st1
    | .closeOutput =>
        if st.closed_output then st
        else
          let st1 := { st with closed_output := true }
          match st1.maybe_waiting with
          | some q => sendReply st1 t q
          | none => st1
    | .request r =>
        { st with maybe_waiting := some r, req_until := t + r.wait_first }
    | .cancel => { st with stopped := true }

/-- Absolute time at which `sleep(wait)` fires when the loop iteration
began at `loopTop`: `wait = req_until - now` saturates at zero, so the
timer fires at `max req_until loopTop`. -/
def fireTime (st : TermState) (loopTop : Nat) : Nat := max st.req_until loopTop

/-- Driver for the `run_term` loop over a time-ordered list of external
events, observed up to the horizon `tEnd`.  Between two events (and after
the last one) the sleep branch fires whenever its deadline comes strictly
earlier; at most one such firing can occur there, because a firing with a
pending request resets the deadline `BIG` milliseconds ahead, and with no
pending request the deadline is always `BIG` ahead of some earlier
instant.  A tie between the timer and an event is resolved in favour of
the event (tokio select picks among ready branches). -/
def runTermAux : TermState → Nat → List (Nat × Ev) → Nat → TermState
  | st, loopTop, [], tEnd =>
      if st.stopped then st
      else if fireTime st loopTop ≤ tEnd then timeoutStep st (fireTime st loopTop)
      else st
  | st, loopTop, (t, e) :: rest, tEnd =>
      if st.stopped then st
      else
        let f := fireTime st loopTop
        if f < t then runTermAux (eventStep (timeoutStep st f) f t e) t rest tEnd
        else runTermAux (eventStep st loopTop t e) t rest tEnd

/-- Run the Coordinator from its initial state at time `t0`. -/
def runTerm (t0 : Nat) (events : List (Nat × Ev)) (tEnd : Nat) : TermState :=
  runTermAux (initTermState t0) t0 events tEnd

/-- Ids of the requests arriving in an event list. -/
def evReqIds : List (Nat × Ev) → List Nat
  | [] => []
  | (_, Ev.request r) :: rest => r.id :: evReqIds rest
  | _ :: rest => evReqIds rest

/-! ## Process Supervisor: the write branch of `do_drive_child`
(src/src/pty.rs lines 154-186)

The pty master is abstracted by an oracle listing the successive results
of the `nbio::write` calls: `wrote n` for `Ok(Some(n))`, `wouldBlock`
for `Ok(None)`, `ioError` for `Err(_)` (propagated by `?`). -/

inductive WriteRes where
  | wrote (n : Nat)
  | wouldBlock
  | ioError (e : String)
  deriving DecidableEq

/-- How the write branch leaves the pump: the inner loop broke and the
outer loop goes on with a remaining buffer, or `do_drive_child` returned
`Ok(())` (a write reported 0 bytes), or an error propagated. -/
inductive WriteEnd where
  | next (remaining : List Nat)
  | exitOk
  | fail (e : String)
  deriving DecidableEq

/-- The inner write loop (src/src/pty.rs lines 158-177): repeatedly call
`nbio::write` on the unwritten part of the buffer; on `Some(n)` advance
by `n` and break when the buffer is exhausted; on `None` (would block)
break; on `Some(0)` return from the whole function; on a hard error
propagate it.  Returns the bytes actually written (in order) and the
outcome.  An exhausted oracle stands for the next call not yet made. -/
def writeLoop : List Nat → List WriteRes → List Nat × WriteEnd
  | buf, [] => ([], WriteEnd.next buf)
  | _, WriteRes.wrote 0 :: _ => ([], WriteEnd.exitOk)
  | buf, WriteRes.wrote (n + 1) :: rs =>
      let k := n + 1
      let buf1 := buf.drop k
      if buf1.isEmpty then (buf.take k, WriteEnd.next [])
      else
        let rec1 := writeLoop buf1 rs
        (buf.take k ++ rec1.1, rec1.2)
  | buf, WriteRes.wouldBlock :: _ => ([], WriteEnd.next buf)
  | _, WriteRes.ioError e :: _ => ([], WriteEnd.fail e)

/-- The buffer bookkeeping after the inner loop (src/src/pty.rs lines
179-186): `left = buf.len()`; if zero, clear the pending input, else
`input.drain(..input.len() - left)`, keeping the last `left` bytes. -/
def drainPending (input : List Nat) (left : Nat) : List Nat :=
  if left = 0 then [] else input.drop (input.length - left)

/-! ## Process Supervisor: spawn and the error pipe
(src/src/pty.rs `spawn`, `exec`, `run_pty`) -/

/-- What happened in the child between fork and exec. -/
inductive ExecOutcome where
  | execSucceeded
  | execFailed (msg : String)
  deriving DecidableEq

/-- Modelled from the spec: the close-on-exec error-pipe convention of
src/src/pty.rs `spawn` (the pipe itself is an OS facility, not repository
code).  On successful exec the pipe is closed by close-on-exec with
nothing written, so the parent reads an empty string; on exec failure the
child writes the error message before exiting (lines 73-85). -/
def childPipeContents : ExecOutcome → String
  | ExecOutcome.execSucceeded => ""
  | ExecOutcome.execFailed msg => msg

/-- Parent side of `spawn` (src/src/pty.rs lines 54-70): read the error
pipe to EOF; an empty read means exec succeeded and the pump future is
produced; a non-empty read becomes `ExecError` carrying exactly the bytes
read; a read failure becomes `ExecError` with that description. -/
def spawnParent (pipeRead : Except String String) : Except String Unit :=
  match pipeRead with
  | Except.ok s => if s = "" then Except.ok () else Except.error s
  | Except.error e => Except.error e

/-- `run_pty` (src/src/pty.rs lines 207-234): deliver the spawn outcome on
`start_tx` and start the pump only on success.  Result: the list of start
messages sent (the oneshot channel is used exactly once) and whether the
pump future was spawned. -/
def run_pty_start (pipeRead : Except String String) :
    List (Except String Unit) × Bool :=
  match spawnParent pipeRead with
  | Except.ok _ => ([Except.ok ()], true)
  | Except.error e => ([Except.error e], false)

/-! ## Grid cells (collaborator model of avt) and src/src/lines.rs -/

/-- avt::Color: a tagged variant, palette index or RGB triple. -/
inductive Color where
  | Indexed (i : Nat)
  | RGB (r g b : Nat)
  deriving DecidableEq

/-- avt::Pen: optional foreground and background colors. -/
structure Pen where
  foreground : Option Color
  background : Option Color
  deriving DecidableEq

/-- avt cell: a character plus its pen. -/
structure Cell where
  ch : Char
  pen : Pen
  deriving DecidableEq

/-- avt::Line: a row of cells. -/
structure Line where
  cells : List Cell
  deriving DecidableEq

/-- Collaborator model of avt Line::text: the row's characters. -/
def Line.text (l : Line) : String := String.mk (l.cells.map Cell.ch)

/-- Collaborator model of avt Line::chars. -/
def Line.chars (l : Line) : List Char := l.cells.map Cell.ch

/-- A rows x cols matrix in row-major order (the ndarray Array2 of
src/src/lines.rs, shape and flat data). -/
structure Mat2 (α : Type) where
  rows : Nat
  cols : Nat
  data : List α
  deriving DecidableEq

/-- A d1 x d2 x d3 array (the ndarray Array3 of src/src/lines.rs). -/
structure Mat3 (α : Type) where
  d1 : Nat
  d2 : Nat
  d3 : Nat
  data : List α
  deriving DecidableEq

/-- Modelled from the spec: `indexedcolor_from_avt` of the missing
src/color.rs.  A palette index passes through; no attempt is made to
convert truecolor codes to indexed colors (doc of
`foreground_indexedcolor`), modelled as 0. -/
def indexedcolor_from_avt : Color → Nat
  | Color.Indexed i => i
  | Color.RGB _ _ _ => 0

/-- Modelled from the spec: `truecolor_from_avt` of the missing
src/color.rs.  RGB passes through; indexed colors go through an inbuilt
palette (out of scope per the spec), modelled as a fixed executable map. -/
def truecolor_from_avt : Color → Nat × Nat × Nat
  | Color.RGB r g b => (r, g, b)
  | Color.Indexed i => (i, i, i)

/-- `chars_from_lines` (src/src/lines.rs lines 32-42): rows x cols matrix
of code points.  The source takes `cols` from `lines.get(0).unwrap()`,
which panics on an empty grid; the empty case is modelled with cols 0. -/
def chars_from_lines (lines : List Line) : Mat2 Nat :=
  { rows := lines.length
    cols := (lines.headD { cells := [] }).cells.length
    data := lines.flatMap (fun l => l.chars.map Char.toNat) }

/-- `indexedcolor_from_lines` (src/src/lines.rs lines 69-88): color
matrix (0 where the pen color is absent) and mask matrix (true where the
color is absent, matching `is_none` in the source). -/
def indexedcolor_from_lines (lines : List Line) (f : Pen → Option Color) :
    Mat2 Nat × Mat2 Bool :=
  let rows := lines.length
  let cols := (lines.headD { cells := [] }).cells.length
  let vcolors := lines.flatMap
    (fun l => l.cells.map (fun c => (f c.pen).map indexedcolor_from_avt))
  (⟨rows, cols, vcolors.map (fun c => c.getD 0)⟩,
   ⟨rows, cols, vcolors.map Option.isNone⟩)

/-- `truecolor_from_lines` (src/src/lines.rs lines 45-67): a 3 x rows x
cols array whose planes are the r, g and b components, plus the absence
mask. -/
def truecolor_from_lines (lines : List Line) (f : Pen → Option Color) :
    Mat3 Nat × Mat2 Bool :=
  let rows := lines.length
  let cols := (lines.headD { cells := [] }).cells.length
  let vcolors := lines.flatMap
    (fun l => l.cells.map (fun c => (f c.pen).map truecolor_from_avt))
  (⟨3, rows, cols,
      vcolors.map (fun c => (c.map Prod.fst).getD 0) ++
      vcolors.map (fun c => (c.map (fun v => v.2.1)).getD 0) ++
      vcolors.map (fun c => (c.map (fun v => v.2.2)).getD 0)⟩,
   ⟨rows, cols, vcolors.map Option.isNone⟩)

/-- `style_fg` (src/src/lines.rs lines 6-16); RGB is TBD in the source
and renders as the empty string. -/
def style_fg : Color → String
  | Color.RGB _ _ _ => ""
  | Color.Indexed i => "\x1b[38;5;" ++ toString i ++ "m"

/-- `style_bg` (src/src/lines.rs lines 19-29). -/
def style_bg : Color → String
  | Color.RGB _ _ _ => ""
  | Color.Indexed i => "\x1b[48;5;" ++ toString i ++ "m"

/-- One cell of the `render_lines` fold (src/src/lines.rs lines 96-115):
emit a color escape whenever the pen differs from the running foreground
or background, then the character. -/
def renderCell (acc : Option Color × Option Color × String) (c : Cell) :
    Option Color × Option Color × String :=
  let acc1 :=
    if c.pen.foreground ≠ acc.1 then
      (c.pen.foreground, acc.2.1,
        acc.2.2 ++ ((c.pen.foreground.map style_fg).getD "\x1b[39m"))
    else acc
  if c.pen.background ≠ acc1.2.1 then
    (acc1.1, c.pen.background,
      acc1.2.2 ++ ((c.pen.background.map style_bg).getD "\x1b[49m") ++
        c.ch.toString)
  else (acc1.1, acc1.2.1, acc1.2.2 ++ c.ch.toString)

/-- `render_lines` (src/src/lines.rs lines 91-120): per line, fold the
cells from a fresh default pen and close with a reset escape and a
newline. -/
def render_lines (lines : List Line) : String :=
  String.join (lines.map
    (fun l => (l.cells.foldl renderCell (none, none, "")).2.2 ++ "\x1b[0m\n"))

/-! ## Key Sequence Encoder (Modelled from the spec: missing src/keys.rs)

Only the fragment the claims need: literal text passes through as UTF-8,
and arrow keys have two escape-introduced encodings selected by
app-cursor mode (xterm conventions: ESC O X in application mode,
ESC [ X otherwise). -/

/-- The named keys documented for `Terminal::keys`. -/
inductive KeyName where
  | enter | space | escape | tab
  | up | down | right | left
  | home | endKey | pageUp | pageDown
  | fKey (n : Nat)
  deriving DecidableEq

/-- `InputSeq` of the missing src/keys.rs: literal text or a named key
with modifiers. -/
inductive InputSeq where
  | Standard (s : String)
  | Key (k : KeyName) (ctrl shift alt : Bool)
  deriving DecidableEq

/-- Modelled from the spec: `parse_key` of the missing src/keys.rs.
Documented key names resolve to named keys; anything unrecognized falls
back to literal text (doc of `Terminal::keys`).  Modifier prefixes are
not needed by the claims and are not modelled. -/
def parse_key (s : String) : InputSeq :=
  if s = "Enter" then InputSeq.Key KeyName.enter false false false
  else if s = "Space" then InputSeq.Key KeyName.space false false false
  else if s = "Escape" then InputSeq.Key KeyName.escape false false false
  else if s = "Tab" then InputSeq.Key KeyName.tab false false false
  else if s = "Up" then InputSeq.Key KeyName.up false false false
  else if s = "Down" then InputSeq.Key KeyName.down false false false
  else if s = "Right" then InputSeq.Key KeyName.right false false false
  else if s = "Left" then InputSeq.Key KeyName.left false false false
  else if s = "Home" then InputSeq.Key KeyName.home false false false
  else if s = "End" then InputSeq.Key KeyName.endKey false false false
  else if s = "PageUp" then InputSeq.Key KeyName.pageUp false false false
  else if s = "PageDown" then InputSeq.Key KeyName.pageDown false false false
  else InputSeq.Standard s

/-- Modelled from the spec: the per-key byte encoding of the missing
src/keys.rs, with the two cursor-key modes for arrow/navigation keys. -/
def encodeKey (appMode : Bool) : KeyName → List Nat
  | KeyName.enter => [13]
  | KeyName.space => [32]
  | KeyName.escape => [27]
  | KeyName.tab => [9]
  | KeyName.up => if appMode then [27, 79, 65] else [27, 91, 65]
  | KeyName.down => if appMode then [27, 79, 66] else [27, 91, 66]
  | KeyName.right => if appMode then [27, 79, 67] else [27, 91, 67]
  | KeyName.left => if appMode then [27, 79, 68] else [27, 91, 68]
  | KeyName.home => if appMode then [27, 79, 72] else [27, 91, 72]
  | KeyName.endKey => if appMode then [27, 79, 70] else [27, 91, 70]
  | KeyName.pageUp => [27, 91, 53, 126]
  | KeyName.pageDown => [27, 91, 54, 126]
  | KeyName.fKey n => [27, 91, n, 126]

/-- Modelled from the spec: one input item to bytes; literal text passes
through as its UTF-8 bytes, alt prefixes an escape byte. -/
def seq_to_bytes (appMode : Bool) : InputSeq → List Nat
  | InputSeq.Standard s => s.toUTF8.toList.map UInt8.toNat
  | InputSeq.Key k _ _ alt =>
      (if alt then [27] else []) ++ encodeKey appMode k

/-- Modelled from the spec: `seqs_to_bytes` of the missing src/keys.rs,
encoding a batch atomically into one buffer. -/
def seqs_to_bytes (seqs : List InputSeq) (appMode : Bool) : List Nat :=
  seqs.flatMap (seq_to_bytes appMode)

/-! ## The Session object (src/src/lib.rs `Terminal`) -/

/-- The fields of the `Terminal` pyclass that the claims observe: channel
sender presence, the `token` field, and the captured snapshot.  A stored
token is identified by a numeric id. -/
structure Terminal where
  input_tx : Bool
  req_tx : Bool
  token : Option Nat
  lines : Option (List Line)
  deriving DecidableEq

/-- The world around a `Terminal`: which token the two spawned loops
hold, which tokens have been cancelled, and the id supply. -/
structure World where
  term : Terminal
  loopsToken : Option Nat
  fired : List Nat
  nextId : Nat
  deriving DecidableEq

/-- `Terminal::py_new` (src/src/lib.rs lines 107-124): all four option
fields start as `None`. -/
def pyNew : World :=
  { term := { input_tx := false, req_tx := false, token := none, lines := none }
    loopsToken := none
    fired := []
    nextId := 0 }

/-- `Terminal::do_start` (src/src/lib.rs lines 61-99): create a fresh
cancellation token, hand clones to `run_pty` and `run_term`, store the
input and request senders on `self`.  The `token` field of `self` is not
assigned anywhere in the source. -/
def do_start (w : World) : World :=
  { w with
      term := { w.term with input_tx := true, req_tx := true }
      loopsToken := some w.nextId
      nextId := w.nextId + 1 }

/-- `Terminal::do_stop` (src/src/lib.rs lines 55-59): cancel the token
stored in the `token` field, if any.  `CancellationToken::cancel` is
idempotent, modelled by not re-adding a fired id. -/
def do_stop (w : World) : World :=
  match w.term.token with
  | some tk => { w with fired := if tk ∈ w.fired then w.fired else w.fired ++ [tk] }
  | none => w

/-- `Terminal::stop` (src/src/lib.rs lines 356-362): usage error when
never started, otherwise `do_stop`. -/
def Terminal.stop (w : World) : Except String World :=
  if w.term.input_tx = false then Except.error "not started"
  else Except.ok (do_stop w)

/-- The reply as `Terminal::settle` sees it: grid payload in the lib
model plus the optional error string. -/
structure LibReply where
  lines : List Line
  error : Option String
  deriving DecidableEq

/-- The tail of `Terminal::settle` (src/src/lib.rs lines 181-189): an
error in the reply is raised and the snapshot is untouched; otherwise the
captured grid replaces the previous snapshot. -/
def settleApply (t : Terminal) (reply : LibReply) :
    Terminal × Except String Unit :=
  match reply.error with
  | some e => (t, Except.error e)
  | none => ({ t with lines := some reply.lines }, Except.ok ())

/-- `Terminal::chars` (src/src/lib.rs lines 193-198). -/
def Terminal.chars (t : Terminal) : Option (Mat2 Nat) :=
  t.lines.map chars_from_lines

/-- `Terminal::foreground_indexedcolor` (src/src/lib.rs lines 203-213). -/
def Terminal.foreground_indexedcolor (t : Terminal) :
    Option (Mat2 Nat × Mat2 Bool) :=
  t.lines.map (fun l => indexedcolor_from_lines l Pen.foreground)

/-- `Terminal::foreground_truecolor` (src/src/lib.rs lines 218-228). -/
def Terminal.foreground_truecolor (t : Terminal) :
    Option (Mat3 Nat × Mat2 Bool) :=
  t.lines.map (fun l => truecolor_from_lines l Pen.foreground)

/-- `Terminal::background_indexedcolor` (src/src/lib.rs lines 233-243). -/
def Terminal.background_indexedcolor (t : Terminal) :
    Option (Mat2 Nat × Mat2 Bool) :=
  t.lines.map (fun l => indexedcolor_from_lines l Pen.background)

/-- `Terminal::background_truecolor` (src/src/lib.rs lines 248-258). -/
def Terminal.background_truecolor (t : Terminal) :
    Option (Mat3 Nat × Mat2 Bool) :=
  t.lines.map (fun l => truecolor_from_lines l Pen.background)

/-- `Terminal::text` (src/src/lib.rs lines 261-273): rows joined by a
newline, or the empty string when no snapshot exists. -/
def Terminal.text (t : Terminal) : String :=
  match t.lines with
  | some lines => String.intercalate "\n" (lines.map Line.text)
  | none => ""

/-- `Terminal::render` (src/src/lib.rs lines 276-278). -/
def Terminal.render (t : Terminal) : Option String :=
  t.lines.map render_lines

/-- `Terminal::input` (src/src/lib.rs lines 281-295): wrap the text as a
Standard sequence and encode with `cursor_key_app_mode` hard-coded to
`true`. -/
def inputBytes (s : String) : List Nat :=
  seqs_to_bytes [InputSeq.Standard s] true

/-- `Terminal::keys` (src/src/lib.rs lines 341-354): parse each spec and
encode with `cursor_key_app_mode` hard-coded to `true`. -/
def keysBytes (ks : List String) : List Nat :=
  seqs_to_bytes (ks.map parse_key) true

theorem evReqIds_cons (te : Nat × Ev) (rest : List (Nat × Ev)) (a : Nat)
    (h : a ∈ evReqIds rest) : a ∈ evReqIds (te :: rest) := by
  rcases te with ⟨t, e⟩
  cases e <;> simp [evReqIds, h]

/-- Any reply appended by the sleep branch is addressed to the request
that was pending when it fired. -/
theorem timeout_sent_mem (st : TermState) (f : Nat) (x : Nat × Nat × TermReply)
    (h : x ∈ (timeoutStep st f).sent) :
    x ∈ st.sent ∨ ∃ q, st.maybe_waiting = some q ∧ x.2.1 = q.id := by
  unfold timeoutStep at h
  by_cases hs : st.stopped
  · simp [hs] at h
    exact Or.inl h
  · simp [hs] at h
    cases hw : st.maybe_waiting with
    | none =>
        rw [hw] at h
        exact Or.inl h
    | some q =>
        rw [hw] at h
        simp [sendReply, captureView] at h
        rcases h with h | h
        · exact Or.inl h
        · exact Or.inr ⟨q, rfl, by simp [h]⟩

/-- The sleep branch never installs a pending request. -/
theorem timeout_pending (st : TermState) (f : Nat) (q' : Req)
    (h : (timeoutStep st f).maybe_waiting = some q') :
    st.maybe_waiting = some q' := by
  by_cases hs : st.stopped
  · simpa [timeoutStep, hs] using h
  · cases hw : st.maybe_waiting with
    | none => simp [timeoutStep, hs, hw] at h
    | some q => simp [timeoutStep, hs, hw, sendReply] at h

/-- Any reply appended by an event branch is addressed to the request
pending when the event was handled. -/
theorem event_sent_mem (st : TermState) (l t : Nat) (e : Ev)
    (x : Nat × Nat × TermReply) (h : x ∈ (eventStep st l t e).sent) :
    x ∈ st.sent ∨ ∃ q, st.maybe_waiting = some q ∧ x.2.1 = q.id := by
  unfold eventStep at h
  by_cases hs : st.stopped
  · simp [hs] at h
    exact Or.inl h
  · simp [hs] at h
    cases e with
    | output data =>
        by_cases hc : st.closed_output
        · simp [hc] at h
          exact Or.inl h
        · simp [hc] at h
          cases hw : st.maybe_waiting with
          | none => rw [hw] at h; exact Or.inl h
          | some q => rw [hw] at h; exact Or.inl h
    | closeOutput =>
        by_cases hc : st.closed_output
        · simp [hc] at h
          exact Or.inl h
        · simp [hc] at h
          cases hw : st.maybe_waiting with
          | none => rw [hw] at h; exact Or.inl h
          | some q =>
              rw [hw] at h
              simp [sendReply, captureView] at h
              rcases h with h | h
              · exact Or.inl h
              · exact Or.inr ⟨q, rfl, by simp [h]⟩
    | request r => exact Or.inl h
    | cancel => exact Or.inl h

/-- An event branch only installs a pending request when the event is a
new request; otherwise the pending request is preserved or cleared. -/
theorem event_pending (st : TermState) (l t : Nat) (e : Ev) (q' : Req)
    (h : (eventStep st l t e).maybe_waiting = some q') :
    st.maybe_waiting = some q' ∨ ∃ r, e = Ev.request r ∧ q' = r := by
  unfold eventStep at h
  by_cases hs : st.stopped
  · simp [hs] at h
    exact Or.inl h
  · simp [hs] at h
    cases e with
    | output data =>
        by_cases hc : st.closed_output
        · simp [hc] at h
          exact Or.inl h
        · simp [hc] at h
          cases hw : st.maybe_waiting with
          | none => rw [hw] at h; simp at h
          | some q =>
              rw [hw] at h
              simp at h
              exact Or.inl (by rw [h])
    | closeOutput =>
        by_cases hc : st.closed_output
        · simp [hc] at h
          exact Or.inl h
        · simp [hc] at h
          cases hw : st.maybe_waiting with
          | none => rw [hw] at h; simp at h
          | some q => rw [hw] at h; simp [sendReply] at h
    | request r =>
        simp at h
        exact Or.inr ⟨r, rfl, h.symm⟩
    | cancel => exact Or.inl h

/-- Soundness of reply addressing over a whole run: every reply in the
final state was already sent, or is addressed to the request pending at
the start, or to a request arriving in the event list. -/
theorem runAux_sent_mem (es : List (Nat × Ev)) :
    ∀ (st : TermState) (loopTop tEnd : Nat) (x : Nat × Nat × TermReply),
      x ∈ (runTermAux st loopTop es tEnd).sent →
      x ∈ st.sent ∨ (∃ q, st.maybe_waiting = some q ∧ x.2.1 = q.id) ∨
        x.2.1 ∈ evReqIds es := by
  induction es with
  | nil =>
      intro st l tEnd x h
      unfold runTermAux at h
      by_cases hs : st.stopped
      · simp [hs] at h
        exact Or.inl h
      · simp [hs] at h
        by_cases hf : fireTime st l ≤ tEnd
        · rw [if_pos hf] at h
          rcases timeout_sent_mem st (fireTime st l) x h with h | h
          · exact Or.inl h
          · exact Or.inr (Or.inl h)
        · rw [if_neg hf] at h
          exact Or.inl h
  | cons te rest ih =>
      intro st l tEnd x h
      rcases te with ⟨t, e⟩
      unfold runTermAux at h
      by_cases hs : st.stopped
      · simp [hs] at h
        exact Or.inl h
      · simp [hs] at h
        by_cases hf : fireTime st l < t
        · rw [if_pos hf] at h
          rcases ih _ t tEnd x h with h1 | ⟨q', hq', hid⟩ | h1
          · rcases event_sent_mem _ _ _ _ x h1 with h2 | ⟨q, hq, hid⟩
            · rcases timeout_sent_mem _ _ x h2 with h3 | ⟨q, hq, hid⟩
              · exact Or.inl h3
              · exact Or.inr (Or.inl ⟨q, hq, hid⟩)
            · exact Or.inr (Or.inl ⟨q, timeout_pending _ _ _ hq, hid⟩)
          · rcases event_pending _ _ _ _ _ hq' with h2 | ⟨r, her, hqr⟩
            · exact Or.inr (Or.inl ⟨q', timeout_pending _ _ _ h2, hid⟩)
            · subst her
              subst hqr
              exact Or.inr (Or.inr (by simp [evReqIds, hid]))
          · exact Or.inr (Or.inr (evReqIds_cons _ _ _ h1))
        · rw [if_neg hf] at h
          rcases ih _ t tEnd x h with h1 | ⟨q', hq', hid⟩ | h1
          · rcases event_sent_mem _ _ _ _ x h1 with h2 | ⟨q, hq, hid⟩
            · exact Or.inl h2
            · exact Or.inr (Or.inl ⟨q, hq, hid⟩)
          · rcases event_pending _ _ _ _ _ hq' with h2 | ⟨r, her, hqr⟩
            · exact Or.inr (Or.inl ⟨q', h2, hid⟩)
            · subst her
              subst hqr
              exact Or.inr (Or.inr (by simp [evReqIds, hid]))
          · exact Or.inr (Or.inr (evReqIds_cons _ _ _ h1))

/-- Helper for the settled-deadline claim: a lone request at `t0` with no
output at all is answered at `t0 + wait_first` with the current (empty)
grid, the pending slot cleared and the deadline pushed effectively
infinitely far. -/
theorem quiet_start (r : Req) (t0 tEnd : Nat) (hr : t0 + r.wait_first ≤ tEnd) :
    runTerm t0 [(t0, Ev.request r)] tEnd
      = { maybe_waiting := none
          req_until := t0 + r.wait_first + BIG
          closed_output := false
          vt := []
          sent := [(t0 + r.wait_first, r.id, { lines := [], error := none })]
          stopped := false } := by
  have hbig : ¬ (fireTime (initTermState t0) t0 < t0) := by
    simp [fireTime, initTermState]
  have hstep : eventStep (initTermState t0) t0 t0 (Ev.request r)
      = { initTermState t0 with
            maybe_waiting := some r, req_until := t0 + r.wait_first } := by
    simp [eventStep, initTermState]
  have hf : fireTime { initTermState t0 with
      maybe_waiting := some r, req_until := t0 + r.wait_first } t0
      = t0 + r.wait_first := by
    simp [fireTime, initTermState]
  unfold runTerm
  rw [runTermAux, if_neg (by simp [initTermState]), if_neg hbig, hstep,
    runTermAux, if_neg (by simp [initTermState]), if_pos (by rw [hf]; exact hr), hf]
  simp [timeoutStep, initTermState, sendReply, captureView]

/-- C1: calling stop() on a started Session is claimed to fire the
cancellation signal observed by both loops.  In the source,
`Terminal::do_start` never assigns `self.token`, so after a start the
`token` field is still `None`, `stop()` returns Ok without firing
anything, the token held by the two loops (id 0) is never cancelled, and
repeated stop() calls are (vacuously) idempotent no-ops. -/
theorem stop_never_fires_cancellation :
    (do_start pyNew).term.input_tx = true ∧
    (do_start pyNew).term.token = none ∧
    (do_start pyNew).loopsToken = some 0 ∧
    Terminal.stop (do_start pyNew) = Except.ok (do_start pyNew) ∧
    (do_start pyNew).fired = [] ∧
    do_stop (do_stop (do_start pyNew)) = do_stop (do_start pyNew) := by
  refine ⟨rfl, rfl, rfl, ?_, rfl, rfl⟩
  simp [Terminal.stop, do_start, pyNew, do_stop]

/-- C2: an exec failure does yield a launch error carrying the non-empty
diagnostic read from the error pipe, but the claim that no snapshot can
subsequently be taken fails: `do_start` installs `req_tx` before reading
the start outcome and never clears it, the output queue closes when the
spawn error drops the output sender, and a later settle request is
answered at its `wait_first` deadline with the empty grid, which
`Terminal::settle` stores as a snapshot. -/
theorem settle_after_failed_start_captures_grid :
    spawnParent (Except.ok "ENOENT") = Except.error "ENOENT" ∧
    "ENOENT" ≠ "" ∧
    run_pty_start (Except.ok "ENOENT") = ([Except.error "ENOENT"], false) ∧
    (do_start pyNew).term.req_tx = true ∧
    (runTerm 0 [(0, Ev.closeOutput), (5, Ev.request ⟨1, 50, 50⟩)] 100).sent
      = [(55, 1, { lines := [], error := none })] ∧
    (settleApply (do_start pyNew).term { lines := [], error := none }).2
      = Except.ok () ∧
    (settleApply (do_start pyNew).term { lines := [], error := none }).1.lines
      = some [] := by
  refine ⟨rfl, by decide, rfl, rfl, by decide, rfl, rfl⟩

/-- C3 counterexample: the pump ends (output queue closes) at t = 10
while a request is pending; the reply the request receives carries the
captured grid and `error = None` — no runtime error is wrapped into it,
because `run_term` initializes its `error` binding to `None` and never
assigns it. -/
theorem pump_end_reply_carries_no_error_cex :
    (runTerm 0 [(0, Ev.request ⟨1, 1000, 50⟩), (10, Ev.closeOutput)] 20).sent
      = [(10, 1, { lines := [], error := none })] := by
  decide

/-- C3 amended: when the pump ends and the output queue closes while a
request is pending, the Coordinator immediately replies with the
captured grid and `error = None`; runtime errors are never wrapped into
the reply, so a consumer can only infer pump termination from the reply
contents or from channel closure on cancellation. -/
theorem pump_end_replies_grid_without_error (st : TermState) (q : Req)
    (l t : Nat) (hstop : st.stopped = false) (hc : st.closed_output = false)
    (hp : st.maybe_waiting = some q) :
    eventStep st l t Ev.closeOutput
      = { st with
          closed_output := true
          sent := st.sent ++ [(t, q.id, { lines := st.vt, error := none })]
          maybe_waiting := none
          req_until := t + BIG } := by
  simp [eventStep, hstop, hc, hp, sendReply, captureView]

/-- Witness for the amended C3 theorem at a concrete state. -/
theorem pump_end_replies_grid_without_error_witness :
    eventStep
        { maybe_waiting := some ⟨1, 1000, 50⟩, req_until := 1000
          closed_output := false, vt := ["a"], sent := [], stopped := false }
        0 10 Ev.closeOutput
      = { maybe_waiting := none, req_until := 10 + BIG
          closed_output := true, vt := ["a"]
          sent := [(10, 1, { lines := ["a"], error := none })]
          stopped := false } :=
  pump_end_replies_grid_without_error
    { maybe_waiting := some ⟨1, 1000, 50⟩, req_until := 1000
      closed_output := false, vt := ["a"], sent := [], stopped := false }
    ⟨1, 1000, 50⟩ 0 10 rfl rfl rfl

/-- C4: the claim says an output chunk pushes the deadline to at least
its arrival time plus `wait_more`.  In the source the output branch uses
the `now` captured at the top of the loop iteration, before the select
blocked: with `wait_first = 1000`, `wait_more = 50`, a request at t = 0
and a single chunk at t = 500, the deadline becomes 0 + 50 = 50 — in the
past, 500 short of the claimed 550 — and the full run replies at t = 500,
zero milliseconds after the last output, contradicting the claim (and the
settle() doc, which promises a further 50 ms of quiet). -/
theorem stale_now_deadline_eval :
    (eventStep
        { maybe_waiting := some ⟨1, 1000, 50⟩, req_until := 1000
          closed_output := false, vt := [], sent := [], stopped := false }
        0 500 (Ev.output "x")).req_until = 50 ∧
    (50 : Nat) < 500 + 50 ∧
    (runTerm 0 [(0, Ev.request ⟨1, 1000, 50⟩), (500, Ev.output "x")] 600).sent
      = [(500, 1, { lines := ["x"], error := none })] := by
  refine ⟨by decide, by decide, by decide⟩

/-- C5: a new request arriving while another is pending replaces it —
the deadline becomes the arrival time plus the new request's
`wait_first`, the state is otherwise unchanged (in particular no reply is
sent to the old request), and as long as the old request's id never
reappears on the request queue, no reply addressed to it is ever sent for
the rest of the run: only the newest request can receive a reply. -/
theorem latest_wins (st : TermState) (q r : Req) (loopTop t tEnd : Nat)
    (rest : List (Nat × Ev))
    (hstop : st.stopped = false) (_hp : st.maybe_waiting = some q)
    (hne : r.id ≠ q.id) (hrest : q.id ∉ evReqIds rest)
    (hsent : ∀ x ∈ st.sent, x.2.1 ≠ q.id) :
    eventStep st loopTop t (Ev.request r)
      = { st with maybe_waiting := some r, req_until := t + r.wait_first } ∧
    ∀ x ∈ (runTermAux (eventStep st loopTop t (Ev.request r)) t rest tEnd).sent,
      x.2.1 ≠ q.id := by
  have hstep : eventStep st loopTop t (Ev.request r)
      = { st with maybe_waiting := some r, req_until := t + r.wait_first } := by
    simp [eventStep, hstop]
  refine ⟨hstep, ?_⟩
  intro x hx
  rcases runAux_sent_mem rest _ t tEnd x hx with h | ⟨q', hq', hid⟩ | h
  · rw [hstep] at h
    exact hsent x h
  · rw [hstep] at hq'
    simp at hq'
    rw [hid, ← hq']
    exact hne
  · intro heq
    rw [heq] at h
    exact hrest h

/-- Witness for the latest-wins theorem at a concrete state. -/
theorem latest_wins_witness :
    eventStep
        { maybe_waiting := some ⟨1, 100, 50⟩, req_until := 100
          closed_output := false, vt := [], sent := [], stopped := false }
        0 10 (Ev.request ⟨2, 30, 40⟩)
      = { maybe_waiting := some ⟨2, 30, 40⟩, req_until := 10 + 30
          closed_output := false, vt := [], sent := [], stopped := false } :=
  (latest_wins
    { maybe_waiting := some ⟨1, 100, 50⟩, req_until := 100
      closed_output := false, vt := [], sent := [], stopped := false }
    ⟨1, 100, 50⟩ ⟨2, 30, 40⟩ 0 10 0 []
    rfl rfl (by decide) (by simp [evReqIds]) (by simp)).1

/-- C6: when the deadline elapses while a request is pending, the
Coordinator captures the current grid, sends it as the reply, clears the
pending request and resets the deadline `BIG` (9999999999) milliseconds
ahead; and in a run where no output at all arrives within `wait_first`,
the lone request is still answered with the current (empty) grid at
`t0 + wait_first` — there is no distinct give-up outcome. -/
theorem deadline_settles_and_replies (st : TermState) (q : Req) (fire : Nat)
    (hstop : st.stopped = false) (hp : st.maybe_waiting = some q)
    (r : Req) (t0 tEnd : Nat) (hr : t0 + r.wait_first ≤ tEnd) :
    timeoutStep st fire
      = { st with
          sent := st.sent ++ [(fire, q.id, { lines := st.vt, error := none })]
          maybe_waiting := none
          req_until := fire + BIG } ∧
    (runTerm t0 [(t0, Ev.request r)] tEnd).sent
      = [(t0 + r.wait_first, r.id, { lines := [], error := none })] ∧
    (runTerm t0 [(t0, Ev.request r)] tEnd).maybe_waiting = none ∧
    (runTerm t0 [(t0, Ev.request r)] tEnd).req_until
      = t0 + r.wait_first + BIG := by
  refine ⟨?_, ?_, ?_, ?_⟩
  · simp [timeoutStep, hstop, hp, sendReply, captureView]
  all_goals rw [quiet_start r t0 tEnd hr]

/-- Witness for the settled-deadline theorem at concrete inputs. -/
theorem deadline_settles_and_replies_witness :
    (runTerm 0 [(0, Ev.request ⟨2, 50, 60⟩)] 50).sent
      = [(0 + 50, 2, { lines := [], error := none })] :=
  (deadline_settles_and_replies
    { maybe_waiting := some ⟨1, 5, 5⟩, req_until := 100
      closed_output := false, vt := ["a"], sent := [], stopped := false }
    ⟨1, 5, 5⟩ 7 rfl rfl ⟨2, 50, 60⟩ 0 50 (by norm_num)).2.1

/-- C7: the parent-side decode of the close-on-exec error pipe: an empty
read reports start success and the pump future is spawned; a non-empty
read becomes a launch error carrying exactly the written message and no
pump runs; in every case exactly one start outcome is delivered. -/
theorem start_outcome_exactly_once (m : String) (hm : m ≠ "") :
    run_pty_start (Except.ok (childPipeContents ExecOutcome.execSucceeded))
      = ([Except.ok ()], true) ∧
    run_pty_start (Except.ok (childPipeContents (ExecOutcome.execFailed m)))
      = ([Except.error m], false) ∧
    (∀ p : Except String String, (run_pty_start p).1.length = 1) := by
  refine ⟨rfl, ?_, ?_⟩
  · simp [run_pty_start, spawnParent, childPipeContents, hm]
  · intro p
    cases p with
    | error e => rfl
    | ok s =>
        by_cases h : s = "" <;> simp [run_pty_start, spawnParent, h]

/-- Witness for the start-outcome theorem at a concrete message. -/
theorem start_outcome_exactly_once_witness :
    run_pty_start (Except.ok (childPipeContents (ExecOutcome.execFailed "x")))
      = ([Except.error "x"], false) :=
  (start_outcome_exactly_once "x" (by decide)).2.1

/-- Helper: whenever the inner write loop breaks back to the outer loop,
the bytes it wrote followed by the remaining buffer reconstitute the
original buffer. -/
theorem writeLoop_next_append (rs : List WriteRes) :
    ∀ (buf w rem : List Nat),
      writeLoop buf rs = (w, WriteEnd.next rem) → w ++ rem = buf := by
  induction rs with
  | nil =>
      intro buf w rem h
      simp [writeLoop] at h
      rw [h.1, h.2]
      simp
  | cons r rs ih =>
      intro buf w rem h
      cases r with
      | wouldBlock =>
          simp [writeLoop] at h
          rw [h.1, h.2]
          simp
      | ioError e => simp [writeLoop] at h
      | wrote n =>
          cases n with
          | zero => simp [writeLoop] at h
          | succ n =>
              rw [writeLoop] at h
              by_cases hb : (buf.drop (n + 1)).isEmpty
              · simp only [hb, if_true] at h
                obtain ⟨h1, h2⟩ := Prod.mk.injEq .. ▸ h
                rw [← h1, (WriteEnd.next.injEq .. ▸ h2 : [] = rem).symm]
                simp only [List.append_nil]
                exact List.take_of_length_le
                  (List.drop_eq_nil_iff.mp (List.isEmpty_iff.mp hb))
              · simp only [hb, if_false] at h
                obtain ⟨h1, h2⟩ := Prod.mk.injEq .. ▸ h
                have := ih (buf.drop (n + 1)) _ rem (by rw [← h2])
                rw [← h1, List.append_assoc, this, List.take_append_drop]

/-- Helper: with no hard I/O error among the write results, the write
branch never fails. -/
theorem writeLoop_no_fail (rs : List WriteRes) :
    ∀ (buf : List Nat) (e : String),
      (∀ e1, WriteRes.ioError e1 ∉ rs) →
      (writeLoop buf rs).2 ≠ WriteEnd.fail e := by
  induction rs with
  | nil =>
      intro buf e _
      simp [writeLoop]
  | cons r rs ih =>
      intro buf e hclean
      cases r with
      | wouldBlock => simp [writeLoop]
      | ioError e1 => exact absurd (List.mem_cons_self _ _) (hclean e1)
      | wrote n =>
          cases n with
          | zero => simp [writeLoop]
          | succ n =>
              rw [writeLoop]
              by_cases hb : (buf.drop (n + 1)).isEmpty
              · simp [hb]
              · simp only [hb, if_false]
                exact ih (buf.drop (n + 1)) e
                  (fun e1 h1 => hclean e1 (List.mem_cons_of_mem _ h1))

/-- C8: on a writable event the write branch writes what it can without
blocking and afterwards the pending buffer is exactly the unwritten
suffix of the previous buffer: the written bytes plus the remainder
reconstitute the input in order (nothing lost or duplicated), the
remainder is the suffix past the written prefix, the `drain` bookkeeping
of `do_drive_child` reproduces precisely that remainder, and short
writes never make the branch fail. -/
theorem write_branch_keeps_unwritten_suffix (input : List Nat)
    (rs : List WriteRes) (w rem : List Nat)
    (hclean : ∀ e, WriteRes.ioError e ∉ rs)
    (h : writeLoop input rs = (w, WriteEnd.next rem)) :
    w ++ rem = input ∧
    rem = input.drop w.length ∧
    drainPending input rem.length = rem ∧
    (∀ e, (writeLoop input rs).2 ≠ WriteEnd.fail e) := by
  have happ := writeLoop_next_append rs input w rem h
  have hdrop : rem = input.drop w.length := by
    rw [← happ, List.drop_left]
  refine ⟨happ, hdrop, ?_, fun e => writeLoop_no_fail rs input e hclean⟩
  unfold drainPending
  by_cases hz : rem.length = 0
  · rw [if_pos hz, (List.length_eq_zero.mp hz).symm]
  · rw [if_neg hz]
    have hlen : input.length = w.length + rem.length := by
      rw [← happ, List.length_append]
    rw [hlen, Nat.add_sub_cancel, ← hdrop]

/-- Witness for the write-branch theorem: a short write of 2 bytes out
of 3 followed by would-block leaves exactly the last byte pending. -/
theorem write_branch_keeps_unwritten_suffix_witness :
    drainPending [1, 2, 3] [3].length = [3] :=
  (write_branch_keeps_unwritten_suffix [1, 2, 3]
    [WriteRes.wrote 2, WriteRes.wouldBlock] [1, 2] [3]
    (by intro e; simp) (by decide)).2.2.1

/-- C9: both public input paths encode with application-cursor mode fixed
to `true` — `Terminal::input` and `Terminal::keys` hard-code
`cursor_key_app_mode = true` — and for each arrow key the two cursor-key
modes encode differently, so the symbolic-key path can never produce the
normal-mode encoding of an arrow key. -/
theorem app_cursor_mode_fixed_true (k : String)
    (hk : k ∈ ["Up", "Down", "Right", "Left"]) :
    (∀ s, inputBytes s = seqs_to_bytes [InputSeq.Standard s] true) ∧
    (∀ ks, keysBytes ks = seqs_to_bytes (ks.map parse_key) true) ∧
    seqs_to_bytes [parse_key k] true ≠ seqs_to_bytes [parse_key k] false ∧
    keysBytes [k] ≠ seqs_to_bytes [parse_key k] false := by
  refine ⟨fun s => rfl, fun ks => rfl, ?_, ?_⟩
  · fin_cases hk <;> decide
  · fin_cases hk <;> decide

/-- Witness for the cursor-mode theorem at the Up key. -/
theorem app_cursor_mode_fixed_true_witness :
    keysBytes ["Up"] ≠ seqs_to_bytes [parse_key "Up"] false :=
  (app_cursor_mode_fixed_true "Up" (by decide)).2.2.2

/-- C10: before the first successful settle the snapshot is absent — a
fresh Terminal has `lines = None`, `do_start` leaves it `None`, an
error-carrying reply leaves the Terminal unchanged — and with
`lines = None` the accessors chars/render and the four color-matrix
accessors return `None` while `text` returns the empty string, none of
them erroring; once a successful reply installs a grid, each accessor
returns the value derived from that captured grid. -/
theorem snapshot_accessors_before_and_after (t u : Terminal) (g r : List Line)
    (e : String) (hnone : t.lines = none) (hsome : u.lines = some g) :
    pyNew.term.lines = none ∧
    (do_start pyNew).term.lines = none ∧
    (settleApply t { lines := r, error := some e }).1 = t ∧
    t.chars = none ∧
    t.render = none ∧
    t.foreground_indexedcolor = none ∧
    t.foreground_truecolor = none ∧
    t.background_indexedcolor = none ∧
    t.background_truecolor = none ∧
    t.text = "" ∧
    (settleApply u { lines := g, error := none }).1.lines = some g ∧
    u.chars = some (chars_from_lines g) ∧
    u.render = some (render_lines g) ∧
    u.foreground_indexedcolor
      = some (indexedcolor_from_lines g Pen.foreground) ∧
    u.foreground_truecolor = some (truecolor_from_lines g Pen.foreground) ∧
    u.background_indexedcolor
      = some (indexedcolor_from_lines g Pen.background) ∧
    u.background_truecolor = some (truecolor_from_lines g Pen.background) ∧
    u.text = String.intercalate "\n" (g.map Line.text) := by
  refine ⟨rfl, rfl, rfl, ?_, ?_, ?_, ?_, ?_, ?_, ?_, rfl, ?_, ?_, ?_, ?_, ?_, ?_, ?_⟩
  all_goals
    simp [Terminal.chars, Terminal.render, Terminal.text,
      Terminal.foreground_indexedcolor, Terminal.foreground_truecolor,
      Terminal.background_indexedcolor, Terminal.background_truecolor,
      hnone, hsome]

/-- Witness for the accessor theorem at concrete terminals and a
one-cell grid. -/
theorem snapshot_accessors_before_and_after_witness :
    Terminal.text { input_tx := true, req_tx := true, token := none
                    lines := none } = "" ∧
    Terminal.chars
        { input_tx := true, req_tx := true, token := none
          lines := some [{ cells := [{ ch := 'a'
                                       pen := { foreground := none
                                                background := none } }] }] }
      = some (chars_from_lines
          [{ cells := [{ ch := 'a'
                         pen := { foreground := none
                                  background := none } }] }]) :=
  And.intro
    ((snapshot_accessors_before_and_after
      { input_tx := true, req_tx := true, token := none, lines := none }
      { input_tx := true, req_tx := true, token := none
        lines := some [{ cells := [{ ch := 'a'
                                     pen := { foreground := none
                                              background := none } }] }] }
      [{ cells := [{ ch := 'a'
                     pen := { foreground := none, background := none } }] }]
      [] "err" rfl rfl).2.2.2.2.2.2.2.2.2.1)
    ((snapshot_accessors_before_and_after
      { input_tx := true, req_tx := true, token := none, lines := none }
      { input_tx := true, req_tx := true, token := none
        lines := some [{ cells := [{ ch := 'a'
                                     pen := { foreground := none
                                              background := none } }] }] }
      [{ cells := [{ ch := 'a'
                     pen := { foreground := none, background := none } }] }]
      [] "err" rfl rfl).2.2.2.2.2.2.2.2.2.2.2.1)

end Numpty
